import Mathlib

/-!
Verification development for the Adobe-FE cloud rendering/export/sync services.

The definitions below are a shallow embedding of the TypeScript sources:
* `RenderJobQueue` (`enqueue`, `processNext`, `handleJobComplete`,
  `handleJobError`, `cancelJob`, `calculateMemoryPressure`) from the render
  job queue module;
* `getTimeoutForFileSize`, `getConfigForTier` and the production
  `renderingConfig` from `src/shared/config/rendering.config.ts`;
* `SyncManager` (`processNextSync`, `handleSyncError`) from the asset-sync
  manager module.

Conventions of the embedding:
* JavaScript numbers that enter arithmetic (file sizes, timeouts, the
  pressure metric) are modelled as `ℚ`; counters and limits are `ℕ`;
  job priorities are `ℤ`.
* `Map` objects are modelled as association lists with `Map.set` /
  `Map.delete` / `Map.get` semantics (`insertA` / `eraseA` / `lookupA`).
* String identifiers (`jobId`, `fileId`) are modelled as `ℕ`.
* `Date` values are modelled as `ℕ` instants supplied by the caller; record
  fields that no modelled operation ever reads (request metadata, URLs,
  log-only payloads) are elided.
* Fallible operations return their result paired with the error/flag the
  source returns; `setTimeout`-scheduled retry dispatches are surfaced as an
  `Option ℕ` delay.
-/

/-- Job status enumeration from the shared common types. -/
inductive JobStatus where
  | queued
  | processing
  | completed
  | failed
  | timeout
  | cancelled
deriving DecidableEq, Repr

/-- Error codes from the shared common types (the ones the modelled services
produce). -/
inductive ErrorCode where
  | fileTooLarge
  | renderTimeout
  | renderFailed
  | syncTimeout
  | syncConflict
  | syncFailed
  | queueFull
deriving DecidableEq, Repr

/-- User tier levels for Creative Cloud subscriptions. -/
inductive UserTier where
  | free
  | pro
  | enterprise
deriving DecidableEq, Repr

/-- Relevant fields of the shared `RenderingConfig` interface. -/
structure RenderingConfig where
  maxFileSizeMB : ℚ
  renderTimeoutMs : ℚ
  exportTimeoutMs : ℚ
  syncTimeoutMs : ℚ
  maxConcurrentJobs : ℕ
  jobQueueDepthLimit : ℕ
  maxRetries : ℕ
  retryBackoffMs : ℕ
deriving DecidableEq, Repr

/-- The production `renderingConfig` values of
`src/shared/config/rendering.config.ts`. -/
def renderingConfig : RenderingConfig where
  maxFileSizeMB := 500
  renderTimeoutMs := 120000
  exportTimeoutMs := 90000
  syncTimeoutMs := 120000
  maxConcurrentJobs := 10
  jobQueueDepthLimit := 100
  maxRetries := 3
  retryBackoffMs := 1000

/-- Operation kinds accepted by `getTimeoutForFileSize`. -/
inductive Operation where
  | render
  | export
  | sync
deriving DecidableEq, Repr

/-- Base timeout per operation, the `baseTimeouts` table of
`getTimeoutForFileSize`. -/
def baseTimeoutFor (cfg : RenderingConfig) : Operation → ℚ
  | .render => cfg.renderTimeoutMs
  | .export => cfg.exportTimeoutMs
  | .sync => cfg.syncTimeoutMs

/-- `getTimeoutForFileSize` from `rendering.config.ts`: the base timeout is
scaled linearly by `1 + fileSizeMB / 100` and capped at three times the
base timeout. -/
def getTimeoutForFileSize (cfg : RenderingConfig) (fileSizeMB : ℚ)
    (operation : Operation) : ℚ :=
  let baseTimeout := baseTimeoutFor cfg operation
  let scaleFactor := 1 + fileSizeMB / 100
  min (baseTimeout * scaleFactor) (baseTimeout * 3)

/-- The fields of the `Partial<RenderingConfig>` tier overrides returned by
`getConfigForTier`; absent fields are `none`. -/
structure TierOverrides where
  maxFileSizeMB : Option ℚ
  maxConcurrentJobs : Option ℕ
  renderTimeoutMs : Option ℚ
  enableGpuRendering : Option Bool
  enableBatchOptimization : Option Bool
deriving DecidableEq, Repr

/-- `getConfigForTier` from `rendering.config.ts`: per-tier overrides.  None
of the tiers overrides any timeout. -/
def getConfigForTier : UserTier → TierOverrides
  | .free =>
      { maxFileSizeMB := some 50
        maxConcurrentJobs := some 1
        renderTimeoutMs := none
        enableGpuRendering := some false
        enableBatchOptimization := none }
  | .pro =>
      { maxFileSizeMB := some 200
        maxConcurrentJobs := some 5
        renderTimeoutMs := none
        enableGpuRendering := some true
        enableBatchOptimization := none }
  | .enterprise =>
      { maxFileSizeMB := some 1000
        maxConcurrentJobs := some 20
        renderTimeoutMs := none
        enableGpuRendering := some true
        enableBatchOptimization := some true }

/-- JavaScript `a || b` on an optional numeric `a`: falls through to `b`
when `a` is absent or `0` (falsy). -/
def jsOrQ : Option ℚ → ℚ → ℚ
  | some x, y => if x = 0 then y else x
  | none, y => y

/-- Tier-specific timeout used by `executeWithTimeout`:
`tierConfig.renderTimeoutMs || renderingConfig.renderTimeoutMs`. -/
def tierTimeoutMs (cfg : RenderingConfig) (tier : UserTier) : ℚ :=
  jsOrQ (getConfigForTier tier).renderTimeoutMs cfg.renderTimeoutMs

/-- The deadline computation of `RenderJobQueue.executeWithTimeout`: the
maximum of the tier timeout and the size-dynamic render timeout. -/
def executeTimeoutMs (cfg : RenderingConfig) (tier : UserTier)
    (fileSizeMB : ℚ) : ℚ :=
  max (tierTimeoutMs cfg tier) (getTimeoutForFileSize cfg fileSizeMB .render)

/-- Fields of `RenderRequest` read by the modelled queue operations. -/
structure RenderRequest where
  jobId : ℕ
  userTier : UserTier
  fileSizeMB : ℚ
  priority : ℤ
deriving DecidableEq, Repr

/-- `QueuedRenderJob` from the rendering types. -/
structure QueuedRenderJob where
  request : RenderRequest
  status : JobStatus
  startedAt : Option ℕ
  attempts : ℕ
deriving DecidableEq, Repr

/-- Fields of `RenderResult` read by the modelled queue operations. -/
structure RenderResult where
  jobId : ℕ
  status : JobStatus
  errorCode : Option ErrorCode
deriving DecidableEq, Repr

/-- Association-list `Map.get`. -/
def lookupA {α : Type} (k : ℕ) : List (ℕ × α) → Option α
  | [] => none
  | (k', v) :: rest => if k' = k then some v else lookupA k rest

/-- Association-list `Map.set`: replace the binding in place when the key is
present, append otherwise. -/
def insertA {α : Type} (k : ℕ) (v : α) : List (ℕ × α) → List (ℕ × α)
  | [] => [(k, v)]
  | (k', v') :: rest =>
    if k' = k then (k, v) :: rest else (k', v') :: insertA k v rest

/-- Association-list `Map.delete`. -/
def eraseA {α : Type} (k : ℕ) : List (ℕ × α) → List (ℕ × α)
  | [] => []
  | (k', v') :: rest => if k' = k then rest else (k', v') :: eraseA k rest

/-- Mutable state of a `RenderJobQueue` instance: the waiting queue, the
active-job map and the terminal-result map. -/
structure QueueState where
  queue : List QueuedRenderJob
  activeJobs : List (ℕ × QueuedRenderJob)
  completedJobs : List (ℕ × RenderResult)
deriving DecidableEq, Repr

/-- The freshly constructed queue: all three containers empty. -/
def initState : QueueState where
  queue := []
  activeJobs := []
  completedJobs := []

/-- The priority insertion of `RenderJobQueue.enqueue`:
`findIndex(j => j.request.priority < request.priority)` followed by
`splice`/`push`, i.e. insert before the first existing entry of strictly
lower priority, at the end when there is none. -/
def insertByPriority (job : QueuedRenderJob) : List QueuedRenderJob →
    List QueuedRenderJob
  | [] => [job]
  | j :: rest =>
    if j.request.priority < job.request.priority then job :: j :: rest
    else j :: insertByPriority job rest

/-- `RenderJobQueue.calculateMemoryPressure` (v2.4.2), exactly as written in
the source, including its documented bug: the job-pressure term divides the
active count by `1` instead of by `maxConcurrentJobs`. -/
def calculateMemoryPressure (cfg : RenderingConfig) (s : QueueState) : ℚ :=
  let jobPressure : ℚ := (s.activeJobs.length : ℚ) / 1
  let queuePressure : ℚ := (s.queue.length : ℚ) / (cfg.jobQueueDepthLimit : ℚ)
  max jobPressure queuePressure

/-- `RenderJobQueue.processNext`: defer when the memory-pressure metric
exceeds `0.7`, defer at the concurrency limit, otherwise shift the head of
the waiting queue, mark it processing (incrementing `attempts`, stamping
`startedAt`) and store it in the active map.  The asynchronous execution
outcome is delivered later by `handleJobComplete`/`handleJobError`. -/
def processNext (cfg : RenderingConfig) (now : ℕ) (s : QueueState) :
    QueueState :=
  if calculateMemoryPressure cfg s > 7/10 then s
  else if cfg.maxConcurrentJobs ≤ s.activeJobs.length then s
  else
    match s.queue with
    | [] => s
    | job :: rest =>
      let job' : QueuedRenderJob :=
        { job with
            status := .processing
            startedAt := some now
            attempts := job.attempts + 1 }
      { queue := rest
        activeJobs := insertA job'.request.jobId job' s.activeJobs
        completedJobs := s.completedJobs }

/-- The freshly queued job object built by `RenderJobQueue.enqueue`:
status queued, no start time, zero attempts. -/
def freshJob (request : RenderRequest) : QueuedRenderJob where
  request := request
  status := .queued
  startedAt := none
  attempts := 0

/-- `RenderJobQueue.enqueue`: reject with `QUEUE_FULL` when the waiting
queue has reached `jobQueueDepthLimit` (no state change), otherwise insert
a fresh job (attempts `0`, status queued) in priority order and trigger
`processNext` synchronously.  The `maxConcurrentJobs` comparison in the
source only logs a warning and has no effect on state. -/
def enqueue (cfg : RenderingConfig) (request : RenderRequest) (now : ℕ)
    (s : QueueState) : QueueState × Option ErrorCode :=
  if cfg.jobQueueDepthLimit ≤ s.queue.length then
    (s, some .queueFull)
  else
    let s' : QueueState := { s with queue := insertByPriority (freshJob request) s.queue }
    (processNext cfg now s', none)

/-- The `RenderResult` produced by a successful `simulateRender` run,
projected to the modelled fields (`status: 'completed'`, no error). -/
def successResult (job : QueuedRenderJob) : RenderResult where
  jobId := job.request.jobId
  status := .completed
  errorCode := none

/-- The terminal `RenderResult` built by the retry-exhausted branch of
`RenderJobQueue.handleJobError`: `status: 'failed'` with
`error.code || RENDER_FAILED`. -/
def failedResult (job : QueuedRenderJob) (e : Option ErrorCode) :
    RenderResult where
  jobId := job.request.jobId
  status := .failed
  errorCode := some (e.getD .renderFailed)

/-- `RenderJobQueue.handleJobComplete`: remove the job from the active map
and record its result in the terminal map.  The trailing `processNext` call
of the source is modelled as a separate dispatch step. -/
def handleJobComplete (job : QueuedRenderJob) (result : RenderResult)
    (s : QueueState) : QueueState where
  queue := s.queue
  activeJobs := eraseA job.request.jobId s.activeJobs
  completedJobs := insertA job.request.jobId result s.completedJobs

/-- `RenderJobQueue.handleJobError`.  When `attempts < maxRetries` the job
is reset to queued with `startedAt` cleared, removed from the active map
and unshifted onto the front of the waiting queue; the source then
schedules `processNext` via `setTimeout(..., retryBackoffMs)`, surfaced
here as `some retryBackoffMs`.  Otherwise the job is finalized with a
failed result (the trailing synchronous `processNext` of that branch is
modelled as a separate dispatch step). -/
def handleJobError (cfg : RenderingConfig) (job : QueuedRenderJob)
    (e : Option ErrorCode) (s : QueueState) : QueueState × Option ℕ :=
  if job.attempts < cfg.maxRetries then
    let retried : QueuedRenderJob := { job with status := .queued, startedAt := none }
    ({ queue := retried :: s.queue
       activeJobs := eraseA job.request.jobId s.activeJobs
       completedJobs := s.completedJobs },
     some cfg.retryBackoffMs)
  else
    ({ queue := s.queue
       activeJobs := eraseA job.request.jobId s.activeJobs
       completedJobs := insertA job.request.jobId (failedResult job e) s.completedJobs },
     none)

/-- Removal of the first waiting job with the given id, the
`findIndex`/`splice` pair of `RenderJobQueue.cancelJob`. -/
def removeFirstJob (jobId : ℕ) : List QueuedRenderJob → List QueuedRenderJob
  | [] => []
  | j :: rest =>
    if j.request.jobId = jobId then rest else j :: removeFirstJob jobId rest

/-- `RenderJobQueue.cancelJob`: remove and report `true` when the id is in
the waiting queue; otherwise report `false` and change nothing — active
jobs cannot be cancelled in this implementation, and unknown or terminal
ids also yield `false`. -/
def cancelJob (jobId : ℕ) (s : QueueState) : QueueState × Bool :=
  if s.queue.any (fun j => j.request.jobId == jobId) then
    ({ s with queue := removeFirstJob jobId s.queue }, true)
  else
    (s, false)

/-- One asynchronous event of a `RenderJobQueue` instance: a submission
(which triggers a synchronous dispatch attempt), a dispatch attempt (also
standing for the deferred `processNext` calls the source schedules after
completions, finalizations and retry backoffs), the completion or failure
of an active job, or a cancellation request. -/
inductive QueueStep (cfg : RenderingConfig) : QueueState → QueueState → Prop
  | enqueue (request : RenderRequest) (now : ℕ) (s : QueueState) :
      QueueStep cfg s (enqueue cfg request now s).1
  | dispatch (now : ℕ) (s : QueueState) :
      QueueStep cfg s (processNext cfg now s)
  | complete (jid : ℕ) (job : QueuedRenderJob) (s : QueueState)
      (h : lookupA jid s.activeJobs = some job) :
      QueueStep cfg s (handleJobComplete job (successResult job) s)
  | fail (jid : ℕ) (job : QueuedRenderJob) (e : Option ErrorCode)
      (s : QueueState) (h : lookupA jid s.activeJobs = some job) :
      QueueStep cfg s (handleJobError cfg job e s).1
  | cancel (jid : ℕ) (s : QueueState) :
      QueueStep cfg s (cancelJob jid s).1

/-- States reachable from the freshly constructed queue. -/
inductive QueueReachable (cfg : RenderingConfig) : QueueState → Prop
  | init : QueueReachable cfg initState
  | step {s s' : QueueState} : QueueReachable cfg s → QueueStep cfg s s' →
      QueueReachable cfg s'

/-- Descending-priority order of a waiting queue: every job is followed only
by jobs of equal or lower priority. -/
def SortedDesc (l : List QueuedRenderJob) : Prop :=
  l.Pairwise (fun a b => b.request.priority ≤ a.request.priority)

/-- Attempt-counter invariant: waiting jobs are fresh (`attempts = 0`) or
re-queued strictly below the retry bound; active jobs carry at most
`max 1 maxRetries` attempts. -/
def AttemptsInv (cfg : RenderingConfig) (s : QueueState) : Prop :=
  (∀ j ∈ s.queue, j.attempts = 0 ∨ j.attempts < cfg.maxRetries) ∧
  (∀ p ∈ s.activeJobs, p.2.attempts ≤ max 1 cfg.maxRetries)

/-- The effective-deadline formula as the spec words it:
`max(tierBaseTimeout, min(baseTimeout * (1 + size/100), 3 * baseTimeout))`.
Stated independently of the source to compare against `executeTimeoutMs`. -/
def specEffectiveTimeout (tierBaseTimeout baseTimeout size : ℚ) : ℚ :=
  max tierBaseTimeout (min (baseTimeout * (1 + size / 100)) (3 * baseTimeout))

/-- The backpressure metric as the spec words it:
`max(activeCount / maxConcurrentJobs, waitingLength / queueDepthLimit)`.
Stated independently of the source to compare against
`calculateMemoryPressure`. -/
def specMemoryPressure (cfg : RenderingConfig) (s : QueueState) : ℚ :=
  max ((s.activeJobs.length : ℚ) / (cfg.maxConcurrentJobs : ℚ))
    ((s.queue.length : ℚ) / (cfg.jobQueueDepthLimit : ℚ))

/-- The queue step relation restricted to runs in which no failure is
re-queued for retry: a failure step is admitted only once its attempts have
exhausted the retry budget (the finalizing branch of `handleJobError`). -/
inductive QueueStepNR (cfg : RenderingConfig) : QueueState → QueueState → Prop
  | enqueue (request : RenderRequest) (now : ℕ) (s : QueueState) :
      QueueStepNR cfg s (enqueue cfg request now s).1
  | dispatch (now : ℕ) (s : QueueState) :
      QueueStepNR cfg s (processNext cfg now s)
  | complete (jid : ℕ) (job : QueuedRenderJob) (s : QueueState)
      (h : lookupA jid s.activeJobs = some job) :
      QueueStepNR cfg s (handleJobComplete job (successResult job) s)
  | fail (jid : ℕ) (job : QueuedRenderJob) (e : Option ErrorCode)
      (s : QueueState) (h : lookupA jid s.activeJobs = some job)
      (ha : cfg.maxRetries ≤ job.attempts) :
      QueueStepNR cfg s (handleJobError cfg job e s).1
  | cancel (jid : ℕ) (s : QueueState) :
      QueueStepNR cfg s (cancelJob jid s).1

/-- States reachable from the fresh queue without any retry re-queue. -/
inductive QueueReachableNR (cfg : RenderingConfig) : QueueState → Prop
  | init : QueueReachableNR cfg initState
  | step {s s' : QueueState} : QueueReachableNR cfg s → QueueStepNR cfg s s' →
      QueueReachableNR cfg s'

/-- Sync direction from the asset-sync manager. -/
inductive SyncDirection where
  | upload
  | download
  | bidirectional
deriving DecidableEq, Repr

/-- Per-file sync status values of the asset-sync manager. -/
inductive SyncFileState where
  | synced
  | pending
  | syncing
  | conflict
  | error
deriving DecidableEq, Repr

/-- Fields of `SyncQueueItem` read by the modelled sync operations. -/
structure SyncQueueItem where
  fileId : ℕ
  fileSizeMB : ℚ
  userTier : UserTier
  direction : SyncDirection
  priority : ℤ
deriving DecidableEq, Repr

/-- Modelled fields of the `SyncStatus` records kept in `fileVersions`. -/
structure SyncStatusRec where
  status : SyncFileState
  localVersion : ℕ
  remoteVersion : ℕ
  errorCode : Option ErrorCode
deriving DecidableEq, Repr

/-- Mutable state of a `SyncManager` instance: the waiting queue, the
active-sync map (file id to start time) and the per-file status map. -/
structure SyncManagerState where
  syncQueue : List SyncQueueItem
  activeSyncs : List (ℕ × ℕ)
  fileVersions : List (ℕ × SyncStatusRec)
deriving DecidableEq, Repr

/-- JavaScript `a || b` on an optional natural `a` (falsy on `0` and on
absence), as in `this.fileVersions.get(id)?.localVersion || 1`. -/
def jsOrN : Option ℕ → ℕ → ℕ
  | some x, y => if x = 0 then y else x
  | none, y => y

/-- `SyncManager.processNextSync`: defer at the concurrent-sync limit,
otherwise shift the queue head, track it as active and mark its file
status as syncing.  The asynchronous outcome is delivered later by the
completion/error handlers. -/
def processNextSync (cfg : RenderingConfig) (now : ℕ) (s : SyncManagerState) :
    SyncManagerState :=
  if cfg.maxConcurrentJobs ≤ s.activeSyncs.length then s
  else
    match s.syncQueue with
    | [] => s
    | item :: rest =>
      { syncQueue := rest
        activeSyncs := insertA item.fileId now s.activeSyncs
        fileVersions :=
          insertA item.fileId
            { status := .syncing
              localVersion := 1
              remoteVersion := 1
              errorCode := none } s.fileVersions }

/-- `SyncManager.handleSyncError`: drop the sync from the active map and
record a terminal error status for the file (with
`error.code || SYNC_FAILED`).  The failed item is not re-queued; the
trailing `processNextSync` call of the source is modelled as a separate
dispatch step.  The configuration parameter mirrors the module's imported
`renderingConfig`; the handler reads none of it. -/
def handleSyncError (cfg : RenderingConfig) (item : SyncQueueItem)
    (e : Option ErrorCode) (s : SyncManagerState) : SyncManagerState :=
  { syncQueue := s.syncQueue
    activeSyncs := eraseA item.fileId s.activeSyncs
    fileVersions :=
      insertA item.fileId
        { status := .error
          localVersion :=
            jsOrN ((lookupA item.fileId s.fileVersions).map SyncStatusRec.localVersion) 1
          remoteVersion :=
            jsOrN ((lookupA item.fileId s.fileVersions).map SyncStatusRec.remoteVersion) 1
          errorCode := some (e.getD .syncFailed) } s.fileVersions }

/-- A render request with the given id and priority on a 10 MB pro-tier
file, used to build concrete executions. -/
def mkRequest (id : ℕ) (pri : ℤ) : RenderRequest where
  jobId := id
  userTier := .pro
  fileSizeMB := 10
  priority := pri

/-- Folding a list of submissions through `enqueue` (each submission
triggering its synchronous dispatch attempt). -/
def enqueueMany (cfg : RenderingConfig) (reqs : List RenderRequest) (now : ℕ)
    (s : QueueState) : QueueState :=
  reqs.foldl (fun t r => (enqueue cfg r now t).1) s

/-- Concrete execution: job 0 is submitted to the fresh production queue and
dispatched immediately. -/
def c1Start : QueueState := (enqueue renderingConfig (mkRequest 0 0) 0 initState).1

/-- Concrete execution: after job 0 is active, 100 further submissions fill
the waiting queue to the depth limit (every dispatch attempt is deferred by
the buggy pressure metric while a job is active). -/
def c1Filled : QueueState :=
  enqueueMany renderingConfig ((List.range 100).map fun i => mkRequest (i + 1) 0) 1 c1Start

/-- The dispatched form of job 0 in the concrete executions: processing,
started at instant 0, first attempt. -/
def jobZero : QueuedRenderJob where
  request := mkRequest 0 0
  status := .processing
  startedAt := some 0
  attempts := 1

/-- Concrete execution: job 0 then fails with retries remaining and is
unshifted onto the full waiting queue, which now exceeds the depth limit. -/
def c1State : QueueState := (handleJobError renderingConfig jobZero none c1Filled).1

/-- Concrete execution: job 0 (priority 0) is submitted and dispatched, then
job 1 (priority 5) is submitted and left waiting because the buggy pressure
metric defers every dispatch attempt while a job is active. -/
def c8State : QueueState :=
  (enqueue renderingConfig (mkRequest 1 5) 1 c1Start).1

/-- Concrete execution: job 0 fails with retries remaining while the
higher-priority job 1 waits; the retry is unshifted onto the front of the
queue, in front of the higher-priority job. -/
def c3State : QueueState := (handleJobError renderingConfig jobZero none c8State).1

/-- Concrete execution for the retry scenario: job 0 fails its first attempt
and is re-dispatched (second attempt). -/
def c4S2 : QueueState :=
  processNext renderingConfig 1 (handleJobError renderingConfig jobZero none c1Start).1

/-- Job 0 while processing its second attempt. -/
def c4Job2 : QueuedRenderJob where
  request := mkRequest 0 0
  status := .processing
  startedAt := some 1
  attempts := 2

/-- Concrete execution: job 0 fails its second attempt and is re-dispatched
(third attempt). -/
def c4S3 : QueueState :=
  processNext renderingConfig 2 (handleJobError renderingConfig c4Job2 none c4S2).1

/-- Job 0 while processing its third attempt. -/
def c4Job3 : QueuedRenderJob where
  request := mkRequest 0 0
  status := .processing
  startedAt := some 2
  attempts := 3

/-- Concrete execution: job 0 succeeds on its third attempt (two failures,
then success, with `maxRetries = 3`). -/
def c4Final : QueueState := handleJobComplete c4Job3 (successResult c4Job3) c4S3

/-- Descending-priority order is decidable (the relation only compares
integer priorities). -/
instance (l : List QueuedRenderJob) : Decidable (SortedDesc l) := by
  unfold SortedDesc
  infer_instance

theorem length_insertA_le {α : Type} (k : ℕ) (v : α) :
    ∀ l : List (ℕ × α), (insertA k v l).length ≤ l.length + 1 := by
  intro l
  induction l with
  | nil => simp [insertA]
  | cons p rest ih =>
    unfold insertA
    by_cases h : p.1 = k
    · rcases p with ⟨k', v'⟩
      simp only at h
      rw [if_pos h]
      simp
    · rcases p with ⟨k', v'⟩
      simp only at h
      rw [if_neg h]
      simpa using Nat.succ_le_succ ih

theorem length_eraseA_le {α : Type} (k : ℕ) :
    ∀ l : List (ℕ × α), (eraseA k l).length ≤ l.length := by
  intro l
  induction l with
  | nil => simp [eraseA]
  | cons p rest ih =>
    rcases p with ⟨k', v'⟩
    unfold eraseA
    by_cases h : k' = k
    · rw [if_pos h]; simp
    · rw [if_neg h]; simpa using Nat.succ_le_succ ih

theorem mem_insertA {α : Type} {k : ℕ} {v : α} :
    ∀ {l : List (ℕ × α)} {p : ℕ × α}, p ∈ insertA k v l → p = (k, v) ∨ p ∈ l := by
  intro l
  induction l with
  | nil => intro p hp; simp [insertA] at hp; exact Or.inl hp
  | cons q rest ih =>
    rcases q with ⟨k', v'⟩
    intro p hp
    unfold insertA at hp
    by_cases h : k' = k
    · rw [if_pos h] at hp
      rcases List.mem_cons.mp hp with rfl | hp
      · exact Or.inl rfl
      · exact Or.inr (List.mem_cons_of_mem _ hp)
    · rw [if_neg h] at hp
      rcases List.mem_cons.mp hp with rfl | hp
      · exact Or.inr (List.mem_cons_self _ _)
      · rcases ih hp with h' | h'
        · exact Or.inl h'
        · exact Or.inr (List.mem_cons_of_mem _ h')

theorem mem_eraseA {α : Type} {k : ℕ} :
    ∀ {l : List (ℕ × α)} {p : ℕ × α}, p ∈ eraseA k l → p ∈ l := by
  intro l
  induction l with
  | nil => intro p hp; simp [eraseA] at hp
  | cons q rest ih =>
    rcases q with ⟨k', v'⟩
    intro p hp
    unfold eraseA at hp
    by_cases h : k' = k
    · rw [if_pos h] at hp
      exact List.mem_cons_of_mem _ hp
    · rw [if_neg h] at hp
      rcases List.mem_cons.mp hp with rfl | hp
      · exact List.mem_cons_self _ _
      · exact List.mem_cons_of_mem _ (ih hp)

theorem lookupA_mem {α : Type} {k : ℕ} {v : α} :
    ∀ {l : List (ℕ × α)}, lookupA k l = some v → (k, v) ∈ l := by
  intro l
  induction l with
  | nil => intro h; simp [lookupA] at h
  | cons q rest ih =>
    rcases q with ⟨k', v'⟩
    intro h
    unfold lookupA at h
    by_cases hk : k' = k
    · rw [if_pos hk] at h
      cases h
      cases hk
      exact List.mem_cons_self _ _
    · rw [if_neg hk] at h
      exact List.mem_cons_of_mem _ (ih h)

theorem lookupA_insertA_self {α : Type} (k : ℕ) (v : α) :
    ∀ l : List (ℕ × α), lookupA k (insertA k v l) = some v := by
  intro l
  induction l with
  | nil => simp [insertA, lookupA]
  | cons q rest ih =>
    rcases q with ⟨k', v'⟩
    unfold insertA
    by_cases h : k' = k
    · rw [if_pos h]
      simp [lookupA]
    · rw [if_neg h]
      unfold lookupA
      rw [if_neg h]
      exact ih

theorem length_insertByPriority (job : QueuedRenderJob) :
    ∀ l : List QueuedRenderJob, (insertByPriority job l).length = l.length + 1 := by
  intro l
  induction l with
  | nil => simp [insertByPriority]
  | cons j rest ih =>
    unfold insertByPriority
    by_cases h : j.request.priority < job.request.priority
    · rw [if_pos h]; simp
    · rw [if_neg h]; simp [ih]

theorem mem_insertByPriority {x job : QueuedRenderJob} :
    ∀ {l : List QueuedRenderJob}, x ∈ insertByPriority job l → x = job ∨ x ∈ l := by
  intro l
  induction l with
  | nil => intro hx; simp [insertByPriority] at hx; exact Or.inl hx
  | cons j rest ih =>
    intro hx
    unfold insertByPriority at hx
    by_cases h : j.request.priority < job.request.priority
    · rw [if_pos h] at hx
      rcases List.mem_cons.mp hx with rfl | hx
      · exact Or.inl rfl
      · exact Or.inr hx
    · rw [if_neg h] at hx
      rcases List.mem_cons.mp hx with rfl | hx
      · exact Or.inr (List.mem_cons_self _ _)
      · rcases ih hx with h' | h'
        · exact Or.inl h'
        · exact Or.inr (List.mem_cons_of_mem _ h')

theorem removeFirstJob_sublist (jobId : ℕ) :
    ∀ l : List QueuedRenderJob, (removeFirstJob jobId l).Sublist l := by
  intro l
  induction l with
  | nil => simp [removeFirstJob]
  | cons j rest ih =>
    unfold removeFirstJob
    by_cases h : j.request.jobId = jobId
    · rw [if_pos h]
      exact List.sublist_cons_self _ _
    · rw [if_neg h]
      exact List.Sublist.cons₂ _ ih

theorem insertByPriority_eq_takeDrop (job : QueuedRenderJob) :
    ∀ l : List QueuedRenderJob,
    insertByPriority job l
      = l.takeWhile (fun j => decide (job.request.priority ≤ j.request.priority))
        ++ job :: l.dropWhile (fun j => decide (job.request.priority ≤ j.request.priority)) := by
  intro l
  induction l with
  | nil => simp [insertByPriority]
  | cons j rest ih =>
    unfold insertByPriority
    by_cases h : j.request.priority < job.request.priority
    · rw [if_pos h]
      have hd : (decide (job.request.priority ≤ j.request.priority)) = false := by
        simp [not_le.mpr h]
      simp [List.takeWhile_cons, List.dropWhile_cons, hd]
    · rw [if_neg h]
      have hd : (decide (job.request.priority ≤ j.request.priority)) = true := by
        simp [le_of_not_lt h]
      simp [List.takeWhile_cons, List.dropWhile_cons, hd, ih]

theorem sortedDesc_insertByPriority (job : QueuedRenderJob) :
    ∀ l : List QueuedRenderJob, SortedDesc l → SortedDesc (insertByPriority job l) := by
  intro l
  induction l with
  | nil =>
    intro _
    simp [insertByPriority, SortedDesc]
  | cons j rest ih =>
    intro h
    rw [SortedDesc, List.pairwise_cons] at h
    obtain ⟨hj, hrest⟩ := h
    unfold insertByPriority
    by_cases hp : j.request.priority < job.request.priority
    · rw [if_pos hp]
      rw [SortedDesc, List.pairwise_cons]
      refine ⟨?_, List.pairwise_cons.mpr ⟨hj, hrest⟩⟩
      intro b hb
      rcases List.mem_cons.mp hb with rfl | hb
      · exact le_of_lt hp
      · exact le_trans (hj b hb) (le_of_lt hp)
    · rw [if_neg hp]
      rw [SortedDesc, List.pairwise_cons]
      refine ⟨?_, ih hrest⟩
      intro b hb
      rcases mem_insertByPriority hb with rfl | hb
      · exact le_of_not_lt hp
      · exact hj b hb

theorem sortedDesc_sublist {l l' : List QueuedRenderJob} (hs : l'.Sublist l)
    (h : SortedDesc l) : SortedDesc l' :=
  List.Pairwise.sublist hs h

/-- The two possible outcomes of a dispatch attempt: a no-op, or moving the
queue head into the active map with one more attempt. -/
theorem processNext_eq_or (cfg : RenderingConfig) (now : ℕ) (s : QueueState) :
    processNext cfg now s = s
    ∨ ∃ job rest, s.queue = job :: rest
        ∧ s.activeJobs.length < cfg.maxConcurrentJobs
        ∧ processNext cfg now s
            = { queue := rest
                activeJobs :=
                  insertA job.request.jobId
                    { job with
                        status := .processing
                        startedAt := some now
                        attempts := job.attempts + 1 } s.activeJobs
                completedJobs := s.completedJobs } := by
  unfold processNext
  by_cases hp : calculateMemoryPressure cfg s > 7/10
  · rw [if_pos hp]; exact Or.inl rfl
  · rw [if_neg hp]
    by_cases hc : cfg.maxConcurrentJobs ≤ s.activeJobs.length
    · rw [if_pos hc]; exact Or.inl rfl
    · rw [if_neg hc]
      cases hq : s.queue with
      | nil => exact Or.inl rfl
      | cons job rest =>
        exact Or.inr ⟨job, rest, rfl, Nat.lt_of_not_le hc, rfl⟩

theorem activeLen_processNext (cfg : RenderingConfig) (now : ℕ) (s : QueueState)
    (h : s.activeJobs.length ≤ cfg.maxConcurrentJobs) :
    (processNext cfg now s).activeJobs.length ≤ cfg.maxConcurrentJobs := by
  rcases processNext_eq_or cfg now s with heq | ⟨job, rest, hq, hc, heq⟩
  · rw [heq]; exact h
  · rw [heq]
    calc (insertA _ _ s.activeJobs).length
        ≤ s.activeJobs.length + 1 := length_insertA_le _ _ _
      _ ≤ cfg.maxConcurrentJobs := hc

theorem activeJobs_enqueue (cfg : RenderingConfig) (request : RenderRequest)
    (now : ℕ) (s : QueueState)
    (h : s.activeJobs.length ≤ cfg.maxConcurrentJobs) :
    (enqueue cfg request now s).1.activeJobs.length ≤ cfg.maxConcurrentJobs := by
  unfold enqueue
  by_cases hd : cfg.jobQueueDepthLimit ≤ s.queue.length
  · rw [if_pos hd]; exact h
  · rw [if_neg hd]
    exact activeLen_processNext cfg now _ h

theorem activeJobs_handleJobError (cfg : RenderingConfig)
    (job : QueuedRenderJob) (e : Option ErrorCode) (s : QueueState) :
    (handleJobError cfg job e s).1.activeJobs
      = eraseA job.request.jobId s.activeJobs := by
  unfold handleJobError
  by_cases h : job.attempts < cfg.maxRetries
  · rw [if_pos h]
  · rw [if_neg h]

theorem cancelJob_state (jid : ℕ) (s : QueueState) :
    (cancelJob jid s).1 = s
    ∨ (cancelJob jid s).1 = { s with queue := removeFirstJob jid s.queue } := by
  unfold cancelJob
  by_cases h : s.queue.any (fun j => j.request.jobId == jid)
  · rw [if_pos h]; exact Or.inr rfl
  · rw [if_neg h]; exact Or.inl rfl

/-- C2.  In every state reachable from the empty queue by submissions,
dispatch attempts, completions, failures/retries and cancellations, the
active set holds at most `maxConcurrentJobs` jobs. -/
theorem concurrencyBound (cfg : RenderingConfig) (s : QueueState)
    (h : QueueReachable cfg s) :
    s.activeJobs.length ≤ cfg.maxConcurrentJobs := by
  induction h with
  | init => simp [initState]
  | step hr hstep ih =>
    cases hstep with
    | enqueue request now => exact activeJobs_enqueue cfg request now _ ih
    | dispatch now => exact activeLen_processNext cfg now _ ih
    | complete jid job hjob =>
      exact le_trans (length_eraseA_le _ _) ih
    | fail jid job e hjob =>
      rw [activeJobs_handleJobError]
      exact le_trans (length_eraseA_le _ _) ih
    | cancel jid =>
      rcases cancelJob_state jid _ with heq | heq
      · rw [heq]; exact ih
      · rw [heq]; exact ih

/-- C2 witness: the bound at the concrete reachable state in which job 0 has
been submitted to the fresh production queue and dispatched. -/
theorem concurrencyBoundWitness :
    (enqueue renderingConfig (mkRequest 0 0) 0 initState).1.activeJobs.length
      ≤ renderingConfig.maxConcurrentJobs :=
  concurrencyBound renderingConfig _
    (QueueReachable.step QueueReachable.init
      (QueueStep.enqueue (mkRequest 0 0) 0 initState))

/-- With the buggy metric, any active job at all pushes the pressure above
the `0.7` threshold, so every dispatch attempt is deferred. -/
theorem pressure_of_active (cfg : RenderingConfig) (s : QueueState)
    (h : 1 ≤ s.activeJobs.length) :
    calculateMemoryPressure cfg s > 7/10 := by
  have h1 : (1 : ℚ) ≤ (s.activeJobs.length : ℚ) := by exact_mod_cast h
  have h2 : ((s.activeJobs.length : ℚ) / 1) ≤ calculateMemoryPressure cfg s := by
    unfold calculateMemoryPressure
    exact le_max_left _ _
  rw [div_one] at h2
  linarith

theorem processNext_defer (cfg : RenderingConfig) (now : ℕ) (s : QueueState)
    (h : calculateMemoryPressure cfg s > 7/10) :
    processNext cfg now s = s := by
  unfold processNext
  rw [if_pos h]

/-- While some job is active and the depth limit is not reached, `enqueue`
only performs the priority insertion: the triggered dispatch attempt is
deferred by the buggy pressure metric. -/
theorem enqueue_of_active (cfg : RenderingConfig) (request : RenderRequest)
    (now : ℕ) (s : QueueState)
    (hq : s.queue.length < cfg.jobQueueDepthLimit)
    (ha : 1 ≤ s.activeJobs.length) :
    enqueue cfg request now s
      = ({ s with queue := insertByPriority (freshJob request) s.queue }, none) := by
  unfold enqueue
  rw [if_neg (Nat.not_le.mpr hq)]
  show (processNext cfg now { s with queue := insertByPriority (freshJob request) s.queue }, none) = _
  rw [processNext_defer cfg now _
    (pressure_of_active cfg { s with queue := insertByPriority (freshJob request) s.queue }
      (by simpa using ha))]

theorem enqueueMany_of_active (cfg : RenderingConfig) (now : ℕ) :
    ∀ (reqs : List RenderRequest) (s : QueueState),
    1 ≤ s.activeJobs.length →
    s.queue.length + reqs.length ≤ cfg.jobQueueDepthLimit →
    (enqueueMany cfg reqs now s).activeJobs = s.activeJobs
    ∧ (enqueueMany cfg reqs now s).completedJobs = s.completedJobs
    ∧ (enqueueMany cfg reqs now s).queue.length = s.queue.length + reqs.length := by
  intro reqs
  induction reqs with
  | nil =>
    intro s _ _
    exact ⟨rfl, rfl, by simp [enqueueMany]⟩
  | cons r rest ih =>
    intro s ha hd
    have hq : s.queue.length < cfg.jobQueueDepthLimit := by
      simp only [List.length_cons] at hd
      omega
    have hstep : (enqueue cfg r now s).1
        = { s with queue := insertByPriority (freshJob r) s.queue } := by
      rw [enqueue_of_active cfg r now s hq ha]
    have hrw : enqueueMany cfg (r :: rest) now s
        = enqueueMany cfg rest now { s with queue := insertByPriority (freshJob r) s.queue } := by
      unfold enqueueMany
      rw [List.foldl_cons, hstep]
    rw [hrw]
    have hlen : (insertByPriority (freshJob r) s.queue).length = s.queue.length + 1 :=
      length_insertByPriority _ _
    have := ih { s with queue := insertByPriority (freshJob r) s.queue }
      (by simpa using ha)
      (by simp only [hlen, List.length_cons] at hd ⊢; omega)
    obtain ⟨h1, h2, h3⟩ := this
    refine ⟨by simpa using h1, by simpa using h2, ?_⟩
    rw [h3]
    simp only [hlen, List.length_cons]
    omega

/-- The state after submitting job 0 to the fresh production queue: the job
is dispatched immediately. -/
theorem c1Start_eq : c1Start = ⟨[], [(0, jobZero)], []⟩ := by
  unfold c1Start enqueue processNext calculateMemoryPressure initState
  norm_num [renderingConfig, insertByPriority, insertA, mkRequest, jobZero, freshJob]

/-- The waiting job 1 (priority 5) as inserted while job 0 is active. -/
def jobOne : QueuedRenderJob := freshJob (mkRequest 1 5)

/-- The state after additionally submitting job 1: it waits, because the
buggy pressure metric defers the dispatch attempt. -/
theorem c8State_eq : c8State = ⟨[jobOne], [(0, jobZero)], []⟩ := by
  unfold c8State
  rw [c1Start_eq]
  rw [enqueue_of_active renderingConfig (mkRequest 1 5) 1 _ (by simp [renderingConfig]) (by simp)]
  simp [insertByPriority, jobOne, mkRequest, freshJob, jobZero]

/-- The state after job 0 fails its first attempt while job 1 waits: the
retry is unshifted in front of the higher-priority waiting job. -/
theorem c3State_eq :
    c3State = ⟨[{ jobZero with status := .queued, startedAt := none }, jobOne], [], []⟩ := by
  unfold c3State
  rw [c8State_eq]
  unfold handleJobError
  rw [if_pos (by simp [jobZero, renderingConfig])]
  simp [eraseA, jobZero, mkRequest]

theorem handleJobError_final_queue (cfg : RenderingConfig)
    (job : QueuedRenderJob) (e : Option ErrorCode) (s : QueueState)
    (h : ¬ job.attempts < cfg.maxRetries) :
    (handleJobError cfg job e s).1.queue = s.queue := by
  unfold handleJobError
  rw [if_neg h]

theorem sortedDesc_processNext (cfg : RenderingConfig) (now : ℕ)
    (s : QueueState) (h : SortedDesc s.queue) :
    SortedDesc (processNext cfg now s).queue := by
  rcases processNext_eq_or cfg now s with heq | ⟨job, rest, hq, _, heq⟩
  · rw [heq]; exact h
  · rw [heq]
    rw [hq] at h
    exact (List.pairwise_cons.mp h).2

theorem sortedDesc_enqueue (cfg : RenderingConfig) (request : RenderRequest)
    (now : ℕ) (s : QueueState) (h : SortedDesc s.queue) :
    SortedDesc (enqueue cfg request now s).1.queue := by
  unfold enqueue
  by_cases hd : cfg.jobQueueDepthLimit ≤ s.queue.length
  · rw [if_pos hd]; exact h
  · rw [if_neg hd]
    exact sortedDesc_processNext cfg now _
      (sortedDesc_insertByPriority (freshJob request) s.queue h)

/-- C3 (amended).  The stable priority insertion of `enqueue` places the new
job exactly before the first strictly-lower-priority entry (after all
equal-or-higher ones, so ties stay FIFO) and preserves descending order,
and every reachable state whose run contains no retry re-queue has a
descending-priority waiting queue.  (The retry re-queue itself can break
the order — see the counterexample.) -/
theorem priorityOrderInvariant :
    (∀ (job : QueuedRenderJob) (l : List QueuedRenderJob),
        insertByPriority job l
          = l.takeWhile (fun j => decide (job.request.priority ≤ j.request.priority))
            ++ job :: l.dropWhile (fun j => decide (job.request.priority ≤ j.request.priority)))
    ∧ (∀ (job : QueuedRenderJob) (l : List QueuedRenderJob),
        SortedDesc l → SortedDesc (insertByPriority job l))
    ∧ (∀ (cfg : RenderingConfig) (s : QueueState),
        QueueReachableNR cfg s → SortedDesc s.queue) := by
  refine ⟨fun job l => insertByPriority_eq_takeDrop job l,
    fun job l h => sortedDesc_insertByPriority job l h, ?_⟩
  intro cfg s h
  induction h with
  | init => simp [initState, SortedDesc]
  | step hr hstep ih =>
    cases hstep with
    | enqueue request now => exact sortedDesc_enqueue cfg request now _ ih
    | dispatch now => exact sortedDesc_processNext cfg now _ ih
    | complete jid job hjob => exact ih
    | fail jid job e hjob ha =>
      rw [handleJobError_final_queue cfg job e _ (Nat.not_lt.mpr (by assumption))]
      exact ih
    | cancel jid =>
      rcases cancelJob_state jid _ with heq | heq
      · rw [heq]; exact ih
      · rw [heq]
        exact sortedDesc_sublist (removeFirstJob_sublist jid _) ih

/-- C3 witness: the waiting queue is in descending-priority order at the
concrete retry-free reachable state in which job 0 has been submitted. -/
theorem priorityOrderInvariantWitness :
    SortedDesc (enqueue renderingConfig (mkRequest 0 0) 0 initState).1.queue :=
  priorityOrderInvariant.2.2 renderingConfig _
    (QueueReachableNR.step QueueReachableNR.init
      (QueueStepNR.enqueue (mkRequest 0 0) 0 initState))

/-- C3 counterexample: a reachable state (job 0 dispatched, higher-priority
job 1 waiting, then job 0 fails with retries remaining) whose waiting queue
is NOT in descending-priority order: the retry re-queue put the priority-0
job in front of the priority-5 job. -/
theorem retryBreaksPriorityOrder :
    QueueReachable renderingConfig c3State ∧ ¬ SortedDesc c3State.queue := by
  constructor
  · have h1 : QueueReachable renderingConfig c1Start :=
      QueueReachable.step QueueReachable.init
        (QueueStep.enqueue (mkRequest 0 0) 0 initState)
    have h2 : QueueReachable renderingConfig c8State :=
      QueueReachable.step h1 (QueueStep.enqueue (mkRequest 1 5) 1 c1Start)
    exact QueueReachable.step h2
      (QueueStep.fail 0 jobZero none c8State (by rw [c8State_eq]; simp [lookupA]))
  · rw [c3State_eq]
    simp [SortedDesc, jobOne, jobZero, mkRequest, freshJob]

theorem attemptsInv_processNext (cfg : RenderingConfig) (now : ℕ)
    (s : QueueState) (h : AttemptsInv cfg s) :
    AttemptsInv cfg (processNext cfg now s) := by
  rcases processNext_eq_or cfg now s with heq | ⟨job, rest, hq, _, heq⟩
  · rw [heq]; exact h
  · rw [heq]
    obtain ⟨hqinv, hainv⟩ := h
    constructor
    · intro j hj
      exact hqinv j (by rw [hq]; exact List.mem_cons_of_mem _ hj)
    · intro p hp
      rcases mem_insertA hp with rfl | hp
      · have hjob := hqinv job (by rw [hq]; exact List.mem_cons_self _ _)
        rcases hjob with h0 | hlt
        · simp only [h0]
          exact le_max_left 1 _
        · exact le_trans (Nat.succ_le_of_lt hlt) (le_max_right 1 _)
      · exact hainv p hp

theorem attemptsInv_enqueue (cfg : RenderingConfig) (request : RenderRequest)
    (now : ℕ) (s : QueueState) (h : AttemptsInv cfg s) :
    AttemptsInv cfg (enqueue cfg request now s).1 := by
  unfold enqueue
  by_cases hd : cfg.jobQueueDepthLimit ≤ s.queue.length
  · rw [if_pos hd]; exact h
  · rw [if_neg hd]
    apply attemptsInv_processNext
    obtain ⟨hq, ha⟩ := h
    constructor
    · intro j hj
      rcases mem_insertByPriority hj with rfl | hj
      · exact Or.inl rfl
      · exact hq j hj
    · exact ha

theorem attemptsInv_reachable (cfg : RenderingConfig) (s : QueueState)
    (h : QueueReachable cfg s) : AttemptsInv cfg s := by
  induction h with
  | init => exact ⟨by simp [initState], by simp [initState]⟩
  | step hr hstep ih =>
    cases hstep with
    | enqueue request now => exact attemptsInv_enqueue cfg request now _ ih
    | dispatch now => exact attemptsInv_processNext cfg now _ ih
    | complete jid job hjob =>
      obtain ⟨hq, ha⟩ := ih
      exact ⟨hq, fun p hp => ha p (mem_eraseA hp)⟩
    | fail jid job e hjob =>
      obtain ⟨hq, ha⟩ := ih
      unfold handleJobError
      by_cases hlt : job.attempts < cfg.maxRetries
      · rw [if_pos hlt]
        constructor
        · intro j hj
          rcases List.mem_cons.mp hj with rfl | hj
          · exact Or.inr hlt
          · exact hq j hj
        · intro p hp
          exact ha p (mem_eraseA hp)
      · rw [if_neg hlt]
        exact ⟨hq, fun p hp => ha p (mem_eraseA hp)⟩
    | cancel jid =>
      obtain ⟨hq, ha⟩ := ih
      rcases cancelJob_state jid _ with heq | heq
      · rw [heq]; exact ⟨hq, ha⟩
      · rw [heq]
        exact ⟨fun j hj => hq j ((removeFirstJob_sublist jid _).mem hj), ha⟩

/-- The state of the retry scenario after job 0 fails its first attempt and
is re-dispatched: second attempt active. -/
theorem c4S2_eq : c4S2 = ⟨[], [(0, c4Job2)], []⟩ := by
  unfold c4S2
  rw [c1Start_eq]
  unfold handleJobError
  rw [if_pos (by simp [jobZero, renderingConfig])]
  unfold processNext calculateMemoryPressure
  norm_num [renderingConfig, eraseA, insertA, insertByPriority, jobZero, mkRequest, c4Job2]

/-- The state of the retry scenario after job 0 fails its second attempt and
is re-dispatched: third attempt active. -/
theorem c4S3_eq : c4S3 = ⟨[], [(0, c4Job3)], []⟩ := by
  unfold c4S3
  rw [c4S2_eq]
  unfold handleJobError
  rw [if_pos (by simp [c4Job2, renderingConfig])]
  unfold processNext calculateMemoryPressure
  norm_num [renderingConfig, eraseA, insertA, jobZero, mkRequest, c4Job2, c4Job3]

/-- C4.  In any reachable state (with at least one permitted retry), the
failure handler finalizes an active job as a terminal failed Result exactly
when its attempts counter has reached `maxRetries`, and that counter then
equals `maxRetries` exactly; with fewer attempts nothing is recorded in the
terminal store (the job is re-queued).  Moreover in the concrete scenario
"two failures then success with `maxRetries = 3`" the job completes on its
third attempt: at completion its attempts counter is 3 and the recorded
Result has status completed. -/
theorem retryBound :
    (∀ (cfg : RenderingConfig) (s : QueueState) (jid : ℕ)
        (job : QueuedRenderJob) (e : Option ErrorCode),
        1 ≤ cfg.maxRetries → QueueReachable cfg s →
        lookupA jid s.activeJobs = some job →
        (cfg.maxRetries ≤ job.attempts →
            job.attempts = cfg.maxRetries
            ∧ (handleJobError cfg job e s).1.completedJobs
                = insertA job.request.jobId (failedResult job e) s.completedJobs)
        ∧ (job.attempts < cfg.maxRetries →
            (handleJobError cfg job e s).1.completedJobs = s.completedJobs))
    ∧ (lookupA 0 c4S3.activeJobs = some c4Job3
        ∧ c4Job3.attempts = renderingConfig.maxRetries
        ∧ lookupA 0 c4Final.completedJobs = some (successResult c4Job3)
        ∧ (successResult c4Job3).status = JobStatus.completed) := by
  constructor
  · intro cfg s jid job e h1 hreach hlook
    have hinv := attemptsInv_reachable cfg s hreach
    have hb := hinv.2 (jid, job) (lookupA_mem hlook)
    rw [Nat.max_eq_right h1] at hb
    constructor
    · intro hge
      refine ⟨le_antisymm hb hge, ?_⟩
      unfold handleJobError
      rw [if_neg (Nat.not_lt.mpr hge)]
    · intro hlt
      unfold handleJobError
      rw [if_pos hlt]
  · refine ⟨?_, ?_, ?_, rfl⟩
    · rw [c4S3_eq]; simp [lookupA]
    · simp [c4Job3, renderingConfig]
    · unfold c4Final handleJobComplete
      rw [c4S3_eq]
      simp [insertA, eraseA, lookupA, c4Job3, mkRequest]

/-- C4 witness: the retry-bound theorem applied at the concrete reachable
scenario state in which job 0 is active on its third attempt with
`maxRetries = 3`. -/
theorem retryBoundWitness :
    (renderingConfig.maxRetries ≤ c4Job3.attempts →
        c4Job3.attempts = renderingConfig.maxRetries
        ∧ (handleJobError renderingConfig c4Job3 none c4S3).1.completedJobs
            = insertA c4Job3.request.jobId (failedResult c4Job3 none) c4S3.completedJobs)
    ∧ (c4Job3.attempts < renderingConfig.maxRetries →
        (handleJobError renderingConfig c4Job3 none c4S3).1.completedJobs
          = c4S3.completedJobs) := by
  have h1 : QueueReachable renderingConfig c1Start :=
    QueueReachable.step QueueReachable.init
      (QueueStep.enqueue (mkRequest 0 0) 0 initState)
  have h2 : QueueReachable renderingConfig
      (handleJobError renderingConfig jobZero none c1Start).1 :=
    QueueReachable.step h1
      (QueueStep.fail 0 jobZero none c1Start (by rw [c1Start_eq]; simp [lookupA]))
  have h3 : QueueReachable renderingConfig c4S2 :=
    QueueReachable.step h2 (QueueStep.dispatch 1 _)
  have h4 : QueueReachable renderingConfig
      (handleJobError renderingConfig c4Job2 none c4S2).1 :=
    QueueReachable.step h3
      (QueueStep.fail 0 c4Job2 none c4S2 (by rw [c4S2_eq]; simp [lookupA]))
  have h5 : QueueReachable renderingConfig c4S3 :=
    QueueReachable.step h4 (QueueStep.dispatch 2 _)
  exact retryBound.1 renderingConfig c4S3 0 c4Job3 none
    (by norm_num [renderingConfig]) h5 (by rw [c4S3_eq]; simp [lookupA])

theorem reachable_enqueueMany (cfg : RenderingConfig) (now : ℕ) :
    ∀ (reqs : List RenderRequest) (s : QueueState),
    QueueReachable cfg s → QueueReachable cfg (enqueueMany cfg reqs now s) := by
  intro reqs
  induction reqs with
  | nil => intro s h; exact h
  | cons r rest ih =>
    intro s h
    have hstep : QueueReachable cfg (enqueue cfg r now s).1 :=
      QueueReachable.step h (QueueStep.enqueue r now s)
    exact ih _ hstep

/-- After job 0 is dispatched, the next 100 submissions fill the waiting
queue to the depth limit without touching the active set. -/
theorem c1Filled_facts :
    c1Filled.activeJobs = [(0, jobZero)]
    ∧ c1Filled.completedJobs = []
    ∧ c1Filled.queue.length = 100 := by
  unfold c1Filled
  rw [c1Start_eq]
  have := enqueueMany_of_active renderingConfig 1
    ((List.range 100).map fun i => mkRequest (i + 1) 0)
    ⟨[], [(0, jobZero)], []⟩ (by simp) (by simp [renderingConfig])
  simpa using this

set_option maxRecDepth 4000 in
/-- Job 0 then fails with retries remaining: its retry is unshifted onto the
full queue, which now holds 101 jobs — one more than the depth limit. -/
theorem c1State_facts :
    c1State.queue.length = 101 ∧ c1State.activeJobs = [] := by
  obtain ⟨ha, hc, hq⟩ := c1Filled_facts
  unfold c1State handleJobError
  rw [if_pos (by simp [jobZero, renderingConfig])]
  constructor
  · show ({ jobZero with status := .queued, startedAt := none } :: c1Filled.queue).length = 101
    rw [List.length_cons, hq]
  · show eraseA jobZero.request.jobId c1Filled.activeJobs = []
    rw [ha]
    simp [eraseA, jobZero, mkRequest]

/-- C1 (amended).  A submission is rejected with `QueueFull` exactly when
the waiting-queue length is at least `queueDepthLimit` at call time (the
queue can exceed the limit when a retry is unshifted onto a full queue),
and a rejected submission performs no mutation whatsoever, irrespective of
the active set. -/
theorem admissionBound (cfg : RenderingConfig) (request : RenderRequest)
    (now : ℕ) (s : QueueState) :
    ((enqueue cfg request now s).2 = some ErrorCode.queueFull
      ↔ cfg.jobQueueDepthLimit ≤ s.queue.length)
    ∧ (cfg.jobQueueDepthLimit ≤ s.queue.length →
        enqueue cfg request now s = (s, some ErrorCode.queueFull)) := by
  constructor
  · unfold enqueue
    by_cases h : cfg.jobQueueDepthLimit ≤ s.queue.length
    · rw [if_pos h]; simp [h]
    · rw [if_neg h]; simp [h]
  · intro h
    unfold enqueue
    rw [if_pos h]

/-- C1 witness: a submission against a queue already filled to the depth
limit is rejected unchanged. -/
theorem admissionBoundWitness :
    enqueue renderingConfig (mkRequest 200 0) 0
        ⟨List.replicate 100 (freshJob (mkRequest 0 0)), [], []⟩
      = (⟨List.replicate 100 (freshJob (mkRequest 0 0)), [], []⟩,
          some ErrorCode.queueFull) :=
  (admissionBound renderingConfig (mkRequest 200 0) 0
    ⟨List.replicate 100 (freshJob (mkRequest 0 0)), [], []⟩).2
    (by simp [renderingConfig])

/-- C1 counterexample: a reachable state whose waiting queue holds 101 jobs
while the depth limit is 100 (a retry was unshifted onto a full queue).
The next submission is rejected with `QueueFull` although the waiting
length does not equal `queueDepthLimit`, refuting the claimed
"if and only if waiting length equals the limit". -/
theorem admissionBoundCounterexample :
    QueueReachable renderingConfig c1State
    ∧ (enqueue renderingConfig (mkRequest 200 0) 2 c1State).2
        = some ErrorCode.queueFull
    ∧ c1State.queue.length ≠ renderingConfig.jobQueueDepthLimit := by
  refine ⟨?_, ?_, ?_⟩
  · have h1 : QueueReachable renderingConfig c1Start :=
      QueueReachable.step QueueReachable.init
        (QueueStep.enqueue (mkRequest 0 0) 0 initState)
    have h2 : QueueReachable renderingConfig c1Filled :=
      reachable_enqueueMany renderingConfig 1 _ c1Start h1
    exact QueueReachable.step h2
      (QueueStep.fail 0 jobZero none c1Filled
        (by rw [c1Filled_facts.1]; simp [lookupA]))
  · exact (admissionBound renderingConfig (mkRequest 200 0) 2 c1State).1.mpr
      (by rw [c1State_facts.1]; simp [renderingConfig])
  · rw [c1State_facts.1]
    simp [renderingConfig]

/-- C5.  When an execution attempt fails with `attempts < maxRetries`, the
failure handler resets the job to queued with its start time cleared,
removes it from the active set, pushes it to the very front of the waiting
queue (ahead of every waiting job, whatever their priorities), records no
terminal result, and schedules the deferred dispatch after the fixed
`retryBackoffMs` delay — a constant independent of the attempt count, i.e.
not exponential. -/
theorem retryRequeue (cfg : RenderingConfig) (job : QueuedRenderJob)
    (e : Option ErrorCode) (s : QueueState)
    (h : job.attempts < cfg.maxRetries) :
    handleJobError cfg job e s
      = ({ queue := { job with status := .queued, startedAt := none } :: s.queue
           activeJobs := eraseA job.request.jobId s.activeJobs
           completedJobs := s.completedJobs },
         some cfg.retryBackoffMs) := by
  unfold handleJobError
  rw [if_pos h]

/-- C5 witness: the retry re-queue at a concrete failed first attempt of
job 0 under the production configuration. -/
theorem retryRequeueWitness :
    handleJobError renderingConfig jobZero none c8State
      = ({ queue := { jobZero with status := .queued, startedAt := none } :: c8State.queue
           activeJobs := eraseA jobZero.request.jobId c8State.activeJobs
           completedJobs := c8State.completedJobs },
         some renderingConfig.retryBackoffMs) :=
  retryRequeue renderingConfig jobZero none c8State
    (by simp [jobZero, renderingConfig])

/-- C6.  The dynamic timeout equals `min(base * (1 + size/100), 3 * base)`
for every operation kind, the effective execution deadline equals the
spec formula `max(tierBaseTimeout, min(base * (1 + size/100), 3 * base))`
for every configuration, tier and size, and instantiated at base timeout
30000 ms with size 300 the effective timeout is 90000 ms. -/
theorem timeoutFormula :
    (∀ (cfg : RenderingConfig) (op : Operation) (size : ℚ),
        getTimeoutForFileSize cfg size op
          = min (baseTimeoutFor cfg op * (1 + size / 100))
              (3 * baseTimeoutFor cfg op))
    ∧ (∀ (cfg : RenderingConfig) (tier : UserTier) (size : ℚ),
        executeTimeoutMs cfg tier size
          = specEffectiveTimeout (tierTimeoutMs cfg tier) cfg.renderTimeoutMs size)
    ∧ (∀ tier : UserTier,
        executeTimeoutMs { renderingConfig with renderTimeoutMs := 30000 } tier 300
          = 90000) := by
  refine ⟨?_, ?_, ?_⟩
  · intro cfg op size
    simp [getTimeoutForFileSize, mul_comm]
  · intro cfg tier size
    simp [executeTimeoutMs, specEffectiveTimeout, getTimeoutForFileSize,
      baseTimeoutFor, mul_comm]
  · intro tier
    cases tier <;>
      norm_num [executeTimeoutMs, tierTimeoutMs, getConfigForTier, jsOrQ,
        getTimeoutForFileSize, baseTimeoutFor, renderingConfig]

/-- C7.  The effective deadline is bounded below by both the tier timeout
and the size-dynamic timeout, and (for a nonnegative base timeout, as
configured) it never decreases when the file size doubles. -/
theorem timeoutMonotone (cfg : RenderingConfig) (tier : UserTier) (size : ℚ)
    (h : 0 ≤ cfg.renderTimeoutMs) :
    tierTimeoutMs cfg tier ≤ executeTimeoutMs cfg tier size
    ∧ getTimeoutForFileSize cfg size .render ≤ executeTimeoutMs cfg tier size
    ∧ executeTimeoutMs cfg tier size ≤ executeTimeoutMs cfg tier (2 * size) := by
  refine ⟨le_max_left _ _, le_max_right _ _, ?_⟩
  have htier : tierTimeoutMs cfg tier = cfg.renderTimeoutMs := by
    cases tier <;> simp [tierTimeoutMs, getConfigForTier, jsOrQ]
  unfold executeTimeoutMs getTimeoutForFileSize baseTimeoutFor
  rw [htier]
  simp only
  rcases le_total size 0 with hs | hs
  · apply max_le (le_max_left _ _)
    calc min (cfg.renderTimeoutMs * (1 + size / 100)) (cfg.renderTimeoutMs * 3)
        ≤ cfg.renderTimeoutMs * (1 + size / 100) := min_le_left _ _
      _ ≤ cfg.renderTimeoutMs := by nlinarith
      _ ≤ max cfg.renderTimeoutMs
            (min (cfg.renderTimeoutMs * (1 + 2 * size / 100))
              (cfg.renderTimeoutMs * 3)) := le_max_left _ _
  · apply max_le_max le_rfl
    apply min_le_min _ le_rfl
    nlinarith

/-- C7 witness: the bounds and the doubling inequality at the production
configuration, pro tier, size 300 MB. -/
theorem timeoutMonotoneWitness :
    tierTimeoutMs renderingConfig .pro ≤ executeTimeoutMs renderingConfig .pro 300
    ∧ getTimeoutForFileSize renderingConfig 300 .render
        ≤ executeTimeoutMs renderingConfig .pro 300
    ∧ executeTimeoutMs renderingConfig .pro 300
        ≤ executeTimeoutMs renderingConfig .pro (2 * 300) :=
  timeoutMonotone renderingConfig .pro 300 (by norm_num [renderingConfig])

/-- C8.  Evidence for the backpressure bug at a concrete reachable state
(job 0 active, job 1 waiting, production config): the source's
`calculateMemoryPressure` divides the active count by 1 and yields `1`
(above the `0.7` threshold), while the spec formula
`max(activeCount / maxConcurrentJobs, waitingLength / queueDepthLimit)`
yields `1/10` (below the threshold); the dispatch attempt is therefore a
no-op and the waiting job stays queued, although per the spec it should
have been dispatched. -/
theorem pressureBugEvidence :
    QueueReachable renderingConfig c8State
    ∧ calculateMemoryPressure renderingConfig c8State = 1
    ∧ specMemoryPressure renderingConfig c8State = 1/10
    ∧ ¬ (specMemoryPressure renderingConfig c8State > 7/10)
    ∧ processNext renderingConfig 2 c8State = c8State
    ∧ c8State.queue.length = 1
    ∧ c8State.activeJobs.length < renderingConfig.maxConcurrentJobs := by
  refine ⟨?_, ?_, ?_, ?_, ?_, ?_, ?_⟩
  · exact QueueReachable.step
      (QueueReachable.step QueueReachable.init
        (QueueStep.enqueue (mkRequest 0 0) 0 initState))
      (QueueStep.enqueue (mkRequest 1 5) 1 c1Start)
  · rw [c8State_eq]
    norm_num [calculateMemoryPressure, renderingConfig]
  · rw [c8State_eq]
    norm_num [specMemoryPressure, renderingConfig]
  · rw [c8State_eq]
    norm_num [specMemoryPressure, renderingConfig]
  · exact processNext_defer renderingConfig 2 c8State
      (pressure_of_active renderingConfig c8State (by rw [c8State_eq]; simp))
  · rw [c8State_eq]; simp
  · rw [c8State_eq]; simp [renderingConfig]

theorem countP_removeFirstJob (jid : ℕ) :
    ∀ l : List QueuedRenderJob,
    l.any (fun j => j.request.jobId == jid) = true →
    (removeFirstJob jid l).countP (fun j => j.request.jobId == jid) + 1
      = l.countP (fun j => j.request.jobId == jid) := by
  intro l
  induction l with
  | nil => intro h; simp at h
  | cons j rest ih =>
    intro h
    unfold removeFirstJob
    by_cases hj : j.request.jobId = jid
    · rw [if_pos hj]
      simp [List.countP_cons, hj]
    · rw [if_neg hj]
      have hrest : rest.any (fun x => x.request.jobId == jid) = true := by
        rcases List.any_eq_true.mp h with ⟨x, hx, hpx⟩
        rcases List.mem_cons.mp hx with rfl | hx
        · exact absurd (by simpa using hpx) hj
        · exact List.any_eq_true.mpr ⟨x, hx, hpx⟩
      have hih := ih hrest
      have hp : (j.request.jobId == jid) = false := by simp [hj]
      rw [List.countP_cons, List.countP_cons]
      simp only [hp]
      omega

/-- C9 (amended).  `cancel(id)` returns true exactly when the id is in the
waiting queue, in which case it only removes that entry (recording no
Result, touching neither the active set nor the terminal store); in every
other case — including an id that is currently active, which cannot be
cancelled in this implementation — it returns false and changes nothing;
and when the id occurs at most once in the waiting queue, a second cancel
after a successful one returns false. -/
theorem cancelBehavior (s : QueueState) (jid : ℕ) :
    ((cancelJob jid s).2 = true
        ↔ s.queue.any (fun j => j.request.jobId == jid) = true)
    ∧ ((cancelJob jid s).2 = true →
        (cancelJob jid s).1 = { s with queue := removeFirstJob jid s.queue })
    ∧ ((cancelJob jid s).2 = false → (cancelJob jid s).1 = s)
    ∧ (s.queue.countP (fun j => j.request.jobId == jid) ≤ 1 →
        (cancelJob jid s).2 = true →
        (cancelJob jid (cancelJob jid s).1).2 = false) := by
  by_cases h : s.queue.any (fun j => j.request.jobId == jid) = true
  · refine ⟨by simp [cancelJob, h], fun _ => by simp [cancelJob, h], ?_, ?_⟩
    · intro hf
      exfalso
      simp [cancelJob, h] at hf
    · intro hcount _
      have h1 : 0 < s.queue.countP (fun j => j.request.jobId == jid) := by
        rcases List.any_eq_true.mp h with ⟨x, hx, hpx⟩
        exact List.countP_pos_iff.mpr ⟨x, hx, hpx⟩
      have hc1 : s.queue.countP (fun j => j.request.jobId == jid) = 1 :=
        le_antisymm hcount h1
      have h0 := countP_removeFirstJob jid s.queue h
      rw [hc1] at h0
      have hz : (removeFirstJob jid s.queue).countP
          (fun j => j.request.jobId == jid) = 0 := by omega
      have hany : (removeFirstJob jid s.queue).any
          (fun j => j.request.jobId == jid) = false := by
        rw [List.any_eq_false]
        intro x hx
        have := List.countP_eq_zero.mp hz x hx
        simpa using this
      simp [cancelJob, h, hany]
  · have hfalse : s.queue.any (fun j => j.request.jobId == jid) = false :=
      Bool.eq_false_iff.mpr h
    refine ⟨by simp [cancelJob, hfalse], ?_, fun _ => by simp [cancelJob, hfalse], ?_⟩
    · intro ht
      exfalso
      simp [cancelJob, hfalse] at ht
    · intro _ ht
      exfalso
      simp [cancelJob, hfalse] at ht

/-- C9 witness: on a queue holding exactly one waiting job with id 5, the
first cancel succeeds and the second returns false. -/
theorem cancelBehaviorWitness :
    (cancelJob 5 (cancelJob 5 ⟨[freshJob (mkRequest 5 0)], [], []⟩).1).2 = false :=
  (cancelBehavior ⟨[freshJob (mkRequest 5 0)], [], []⟩ 5).2.2.2
    (by simp [freshJob, mkRequest])
    (by simp [cancelJob, freshJob, mkRequest])

/-- C9 counterexample: in the reachable state where job 0 is active (and
the waiting queue is empty), `cancelJob 0` returns false — not true as the
claim asserts for active jobs — and the state is untouched. -/
theorem cancelActiveCounterexample :
    QueueReachable renderingConfig c1Start
    ∧ lookupA 0 c1Start.activeJobs = some jobZero
    ∧ (cancelJob 0 c1Start).2 = false := by
  refine ⟨QueueReachable.step QueueReachable.init
    (QueueStep.enqueue (mkRequest 0 0) 0 initState), ?_, ?_⟩
  · rw [c1Start_eq]
    simp [lookupA]
  · rw [c1Start_eq]
    simp [cancelJob]

/-- C10.  The asset-sync error handler finalizes immediately: it leaves the
waiting sync queue untouched (in particular it never re-queues the failed
item), removes the sync from the active map, and records a terminal
`'error'` status carrying `error.code || SYNC_FAILED` for the file;
moreover neither the dispatcher nor the error handler consults
`maxRetries` or `retryBackoffMs` — their results are identical under any
two configurations that agree on `maxConcurrentJobs` alone. -/
theorem syncNoRetry :
    (∀ (cfg : RenderingConfig) (item : SyncQueueItem) (e : Option ErrorCode)
        (s : SyncManagerState),
        (handleSyncError cfg item e s).syncQueue = s.syncQueue
        ∧ (handleSyncError cfg item e s).activeSyncs
            = eraseA item.fileId s.activeSyncs
        ∧ (lookupA item.fileId (handleSyncError cfg item e s).fileVersions).map
            SyncStatusRec.status = some SyncFileState.error
        ∧ (lookupA item.fileId (handleSyncError cfg item e s).fileVersions).map
            SyncStatusRec.errorCode = some (some (e.getD ErrorCode.syncFailed)))
    ∧ (∀ (cfg cfg' : RenderingConfig) (now : ℕ) (item : SyncQueueItem)
        (e : Option ErrorCode) (s : SyncManagerState),
        cfg.maxConcurrentJobs = cfg'.maxConcurrentJobs →
        processNextSync cfg now s = processNextSync cfg' now s
        ∧ handleSyncError cfg item e s = handleSyncError cfg' item e s) := by
  constructor
  · intro cfg item e s
    refine ⟨rfl, rfl, ?_, ?_⟩
    · unfold handleSyncError
      rw [lookupA_insertA_self]
      rfl
    · unfold handleSyncError
      rw [lookupA_insertA_self]
      rfl
  · intro cfg cfg' now item e s hmax
    constructor
    · unfold processNextSync
      rw [hmax]
    · rfl

/-- C10 witness: the configuration-independence applied at the production
configuration against a variant with different retry settings, on a
concrete failed sync of file 7. -/
theorem syncNoRetryWitness :
    processNextSync renderingConfig 0
        ⟨[⟨7, 10, .pro, .upload, 50⟩], [(7, 0)], []⟩
      = processNextSync
          { renderingConfig with maxRetries := 0, retryBackoffMs := 999999 } 0
          ⟨[⟨7, 10, .pro, .upload, 50⟩], [(7, 0)], []⟩
    ∧ handleSyncError renderingConfig ⟨7, 10, .pro, .upload, 50⟩ none
        ⟨[⟨7, 10, .pro, .upload, 50⟩], [(7, 0)], []⟩
      = handleSyncError
          { renderingConfig with maxRetries := 0, retryBackoffMs := 999999 }
          ⟨7, 10, .pro, .upload, 50⟩ none
          ⟨[⟨7, 10, .pro, .upload, 50⟩], [(7, 0)], []⟩ :=
  syncNoRetry.2 renderingConfig
    { renderingConfig with maxRetries := 0, retryBackoffMs := 999999 }
    0 ⟨7, 10, .pro, .upload, 50⟩ none
    ⟨[⟨7, 10, .pro, .upload, 50⟩], [(7, 0)], []⟩ rfl
